import Mathlib

/-!
Shallow embedding of the express-jobly access-control middleware
(src/middleware/auth.js) and the company filter query builder
(Company.findAll / Company.filterCompanies in the company model file),
together with theorems settling the specification claims about them.

JavaScript dynamic values are modelled by the inductive `JSValue`
(undefined, booleans, integers, strings); truthiness and strict
equality follow the JS semantics on those shapes. Thrown errors are
modelled with `Except`.
-/

namespace Jobly

/-- Model of the JavaScript values that flow through the middleware and
the filter builder: `undefined`, booleans, numbers (restricted to the
integers that occur here; no floats are involved in the claims) and
strings. -/
inductive JSValue where
  | undefined : JSValue
  | bool (b : Bool) : JSValue
  | num (n : Int) : JSValue
  | str (s : String) : JSValue
deriving DecidableEq, Repr

/-- JS truthiness on the modelled value shapes: `undefined` is falsy,
booleans are themselves, a number is truthy iff nonzero, a string is
truthy iff non-empty. -/
def truthy : JSValue → Bool
  | .undefined => false
  | .bool b => b
  | .num n => n != 0
  | .str s => s != ""

/-- JS strict equality (`===`) on the modelled shapes: values of
distinct types are never equal, otherwise structural equality
(`undefined === undefined` is true). -/
def strictEq (a b : JSValue) : Bool := a == b

/-- JS relational `>` as exercised by `Company.findAll`: two numbers
compare numerically, two strings compare lexicographically, and any
comparison involving `undefined` is false (NaN semantics). Cross-type
numeric coercions are outside the shapes the claims exercise and are
not modelled. -/
def jsGt : JSValue → JSValue → Bool
  | .num a, .num b => a > b
  | .str a, .str b => b < a
  | _, _ => false

/-- Errors thrown by the express layer: `UnauthorizedError` from the
auth gates and `BadRequestError` (the range-validation error the spec
calls `InvalidRangeError`) from the model layer. -/
inductive ExpressError where
  | unauthorized : ExpressError
  | badRequest (msg : String) : ExpressError
deriving DecidableEq, Repr

/-- Verification failure inside `jwt.verify` (malformed token, bad
signature, expired); the extractor catches these. -/
inductive JwtError where
  | invalidToken : JwtError
deriving DecidableEq, Repr

/-- The JWT payload stored on `res.locals.user`: a `username` field and
an `isAdmin` field, both arbitrary JS values as far as the middleware
is concerned. -/
structure Payload where
  username : JSValue
  isAdmin : JSValue
deriving DecidableEq, Repr

/-- Optional chaining `user?.username`: `undefined` when the user record
is absent. -/
def optUsername : Option Payload → JSValue
  | none => .undefined
  | some u => u.username

/-- Optional chaining `user?.isAdmin`: `undefined` when the user record
is absent. -/
def optIsAdmin : Option Payload → JSValue
  | none => .undefined
  | some u => u.isAdmin

/-- Character-level prefix test (the anchored part of the regex match),
defined on character lists so that it evaluates inside the kernel. -/
def charsStartWith : List Char → List Char → Bool
  | _, [] => true
  | [], _ :: _ => false
  | c :: cs, p :: ps => c == p && charsStartWith cs ps

/-- Whitespace as trimmed by the JS `String.prototype.trim` on the
characters that occur in authorization headers. -/
def isJsWhitespace (c : Char) : Bool :=
  c == ' ' || c == '\t' || c == '\n' || c == '\r'

/-- Trim whitespace from both ends of a character list (the effect of
`.trim()`). -/
def trimChars (l : List Char) : List Char :=
  ((l.dropWhile isJsWhitespace).reverse.dropWhile isJsWhitespace).reverse

/-- The token cleanup in `authenticateJWT`:
`authHeader.replace(/^[Bb]earer /, "").trim()`. The anchored regex
removes a leading `"Bearer "` or `"bearer "` (only the first letter is
case-insensitive; the seven-character match is dropped), then
surrounding whitespace is trimmed. -/
def stripBearer (h : String) : String :=
  let cs := h.data
  let rest :=
    if charsStartWith cs "Bearer ".data then cs.drop 7
    else if charsStartWith cs "bearer ".data then cs.drop 7
    else cs
  ⟨trimChars rest⟩

/-- Embedding of `authenticateJWT` from src/middleware/auth.js,
parameterised by the verifier `jwt.verify(-, SECRET_KEY)`. Returns the
value stored on `res.locals.user` (inside `.ok` since the middleware
itself never throws: the `try/catch` swallows verification errors and
`next()` is always reached). An absent header, and an empty header
(falsy in JS), skip verification entirely. -/
def authenticateJWT (verify : String → Except JwtError Payload)
    (authHeader : Option String) : Except ExpressError (Option Payload) :=
  match authHeader with
  | none => .ok none
  | some h =>
    if h = "" then .ok none
    else
      match verify (stripBearer h) with
      | .ok payload => .ok (some payload)
      | .error _ => .ok none

/-- Embedding of `ensureIsAdmin`: passes iff
`res.locals.user?.isAdmin === true && res.locals.user?.username` (the
second conjunct is a truthiness test); otherwise throws
`UnauthorizedError`. -/
def ensureIsAdmin (curUser : Option Payload) : Except ExpressError Unit :=
  if strictEq (optIsAdmin curUser) (.bool true) && truthy (optUsername curUser) then
    .ok ()
  else
    .error .unauthorized

/-- Embedding of `ensureIsAdminOrUser`: passes iff
`curUser?.isAdmin || curUser?.username === req.params.username` (the
first disjunct is a truthiness test, not `=== true`); otherwise throws
`UnauthorizedError`. `paramUsername` models `req.params.username`,
which is `undefined` when the route has no such parameter. -/
def ensureIsAdminOrUser (curUser : Option Payload) (paramUsername : JSValue) :
    Except ExpressError Unit :=
  if truthy (optIsAdmin curUser) || strictEq (optUsername curUser) paramUsername then
    .ok ()
  else
    .error .unauthorized

/-- The fragment produced by the `keys.map((colName, idx) => ...)`
callback of `Company._filterCompanies` for the key `colName` sitting at
zero-based position `idx`: a recognized key yields its SQL comparison
with positional placeholder `$ (idx + 1)`, any other key yields
JavaScript `undefined` (the callback falls off the end), modelled as
`none`. -/
def fragmentFor (colName : String) (idx : Nat) : Option String :=
  if colName = "minEmployees" then
    some ("num_employees >= $" ++ toString (idx + 1))
  else if colName = "maxEmployees" then
    some ("num_employees <=  $" ++ toString (idx + 1))
  else if colName = "nameLike" then
    some ("name ILIKE \x27%\x27||$" ++ toString (idx + 1) ++ "||\x27%\x27")
  else
    none

/-- The list `keys.map((colName, idx) => ...)` itself: each key is
paired with its zero-based index, starting from `idx`. -/
def fragmentsFrom : Nat → List String → List (Option String)
  | _, [] => []
  | idx, k :: ks => fragmentFor k idx :: fragmentsFrom (idx + 1) ks

/-- JavaScript `Array.prototype.join(sep)`: `undefined` elements are
rendered as the empty string. -/
def undefJoin (xs : List (Option String)) (sep : String) : String :=
  String.intercalate sep (xs.map (fun x => x.getD ""))

/-- Embedding of `Company._filterCompanies(data)`: on an empty mapping
returns an empty clause and empty values; otherwise returns
`"WHERE "` followed by the per-key fragments joined with `" AND "`,
and `Object.values(data)` (all values, in key insertion order) as the
bound parameter list. The mapping is modelled as an association list in
insertion order; the value type is abstract since the builder never
inspects values. -/
def filterCompanies (data : List (String × α)) : String × List α :=
  let keys := data.map Prod.fst
  if keys.length < 1 then ("", [])
  else
    ("WHERE " ++ undefJoin (fragmentsFrom 0 keys) " AND ",
     data.map Prod.snd)

/-- JS property access used by the destructuring
`const (minEmployees, maxEmployees, nameLike) = filter` in
`Company.findAll`: the value stored under the key, or `undefined` when
the key is absent. -/
def getField (data : List (String × JSValue)) (k : String) : JSValue :=
  match data.find? (fun p => p.1 == k) with
  | some p => p.2
  | none => .undefined

/-- Message of the range-validation error thrown by `Company.findAll`
(the error the spec names `InvalidRangeError`). -/
def rangeErrorMsg : String := "minEmployees must be less than maxEmployees"

/-- The SQL text `Company.findAll` sends to the store, with the filter
clause interpolated between the FROM and ORDER BY parts (template
whitespace normalized to single spaces). -/
def companiesQuery (setCols : String) : String :=
  "SELECT handle, name, description, num_employees AS \"numEmployees\", logo_url AS \"logoUrl\" FROM companies "
    ++ setCols ++ " ORDER BY name"

/-- Embedding of `Company.findAll(filter)` up to the store round trip:
validates the employee range (JS `minEmployees > maxEmployees` on the
destructured fields, which is false when either is `undefined`), then
builds the query text and bound values via `filterCompanies`. The
result models the pair actually passed to `db.query`; the range error
is thrown before any of that is constructed. -/
def findAll (filter : List (String × JSValue)) : Except ExpressError (String × List JSValue) :=
  let minEmployees := getField filter "minEmployees"
  let maxEmployees := getField filter "maxEmployees"
  if jsGt minEmployees maxEmployees then
    .error (.badRequest rangeErrorMsg)
  else
    let r := filterCompanies filter
    .ok (companiesQuery r.1, r.2)

/-- Whether a filter key is one of the three the builder recognizes. -/
def recognizedKey (k : String) : Bool :=
  k == "minEmployees" || k == "maxEmployees" || k == "nameLike"

/-- The fragment of a recognized key as a plain string (the `some` case
of `fragmentFor`). -/
def recFragment (k : String) (idx : Nat) : String :=
  (fragmentFor k idx).getD ""

/-- The fragment list of an all-recognized key list, as plain strings. -/
def recFragsFrom : Nat → List String → List String
  | _, [] => []
  | idx, k :: ks => recFragment k idx :: recFragsFrom (idx + 1) ks

end Jobly

namespace Jobly

/-- Reduction of the admin gate on a present identity to its boolean
condition. -/
lemma ensureIsAdmin_some (u : Payload) :
    ensureIsAdmin (some u)
      = if (u.isAdmin == JSValue.bool true) && truthy u.username then
          .ok ()
        else
          .error .unauthorized := rfl

/-- C9: the administrator-only gate `ensureIsAdmin` admits an identity
exactly when it is present, its administrator flag is exactly the
boolean `true`, and its (string) subject is non-empty; an absent
identity is rejected, and so are the truthy non-boolean flags
`"true"` and `1`. Every rejection is the uniform `UnauthorizedError`. -/
theorem c9_admin_gate_exact_boolean :
    (∀ (s : String) (a : JSValue),
        ensureIsAdmin (some ⟨.str s, a⟩) = .ok () ↔ (a = .bool true ∧ s ≠ ""))
    ∧ ensureIsAdmin none = .error .unauthorized
    ∧ ensureIsAdmin (some ⟨.str "alice", .str "true"⟩) = .error .unauthorized
    ∧ ensureIsAdmin (some ⟨.str "alice", .num 1⟩) = .error .unauthorized := by
  refine ⟨?_, rfl, rfl, rfl⟩
  intro s a
  rw [ensureIsAdmin_some]
  rcases eq_or_ne a (JSValue.bool true) with ha | ha
  · subst ha
    rcases eq_or_ne s "" with hs | hs
    · subst hs
      simp [truthy]
    · simp [truthy, hs]
  · have hb : (a == JSValue.bool true) = false := by
      simpa using ha
    simp [hb, ha]

/-- C10: when no identity is present and the username path parameter is
absent as well, the admin-or-self gate admits the call: the optional
chaining on the absent user yields `undefined`, which is strictly equal
to the `undefined` path parameter. -/
theorem c10_absent_identity_absent_param_admits :
    ensureIsAdminOrUser none JSValue.undefined = .ok () := rfl

/-- C2 (evaluation at the failing input): the admin-or-self gate tests
`curUser?.isAdmin` for truthiness rather than for strict equality with
`true`, so an identity whose flag is the string `"true"` or the number
`1` is admitted against a different target username, contradicting the
exact-boolean rule of the claim; a flag of `false` is still rejected. -/
theorem c2_truthy_admin_flag_admitted :
    ensureIsAdminOrUser (some ⟨.str "eve", .str "true"⟩) (.str "bob") = .ok ()
    ∧ ensureIsAdminOrUser (some ⟨.str "eve", .num 1⟩) (.str "bob") = .ok ()
    ∧ ensureIsAdminOrUser (some ⟨.str "eve", .bool false⟩) (.str "bob")
        = .error .unauthorized
    ∧ ensureIsAdminOrUser (some ⟨.str "alice", .bool false⟩) (.str "alice") = .ok () :=
  ⟨rfl, rfl, rfl, rfl⟩

/-- C7: the identity extractor never raises. For every header value and
every behaviour of the verifier, `authenticateJWT` returns normally
(an `.ok` result, i.e. `next()` is reached): an absent header stores no
identity, a header whose cleaned token fails verification stores no
identity, and a non-empty header whose cleaned token verifies stores
exactly the verified payload. -/
theorem c7_extractor_never_raises (verify : String → Except JwtError Payload)
    (authHeader : Option String) :
    (∃ u, authenticateJWT verify authHeader = .ok u)
    ∧ (authHeader = none → authenticateJWT verify authHeader = .ok none)
    ∧ (∀ h e, authHeader = some h → verify (stripBearer h) = .error e →
        authenticateJWT verify authHeader = .ok none)
    ∧ (∀ h p, authHeader = some h → h ≠ "" → verify (stripBearer h) = .ok p →
        authenticateJWT verify authHeader = .ok (some p)) := by
  refine ⟨?_, ?_, ?_, ?_⟩
  · cases authHeader with
    | none => exact ⟨none, rfl⟩
    | some h =>
      by_cases hh : h = ""
      · subst hh
        exact ⟨none, rfl⟩
      · cases hv : verify (stripBearer h) with
        | ok p => exact ⟨some p, by simp [authenticateJWT, hh, hv]⟩
        | error e => exact ⟨none, by simp [authenticateJWT, hh, hv]⟩
  · rintro rfl
    rfl
  · rintro h e rfl hv
    by_cases hh : h = ""
    · subst hh
      rfl
    · simp [authenticateJWT, hh, hv]
  · rintro h p rfl hh hv
    simp [authenticateJWT, hh, hv]

/-- Verifier fixed for the concrete extractor scenarios: exactly one
token string verifies, everything else fails as invalid. -/
def vfyFixed : String → Except JwtError Payload := fun s =>
  if s = "good.token" then .ok ⟨.str "alice", .bool true⟩ else .error .invalidToken

/-- Witness for C7: the extractor theorem applied to the fixed verifier
and the header carrying the valid token, with every hypothesis
discharged on the concrete input. -/
theorem c7_extractor_never_raises_witness :
    ((some "Bearer good.token" : Option String) = some "Bearer good.token"
        ∧ "Bearer good.token" ≠ ""
        ∧ vfyFixed (stripBearer "Bearer good.token") = .ok ⟨.str "alice", .bool true⟩)
    ∧ authenticateJWT vfyFixed (some "Bearer good.token")
        = .ok (some ⟨.str "alice", .bool true⟩) :=
  ⟨⟨rfl, by decide, rfl⟩,
    (c7_extractor_never_raises vfyFixed (some "Bearer good.token")).2.2.2
      "Bearer good.token" ⟨.str "alice", .bool true⟩ rfl (by decide) rfl⟩

/-- C8 (counterexample): only the first letter of the bearer prefix is
matched case-insensitively by the regex. With a verifier accepting the
token "good.token", the header "Bearer good.token" yields the payload,
but "BEARER good.token" is not stripped (the extractor passes the whole
header to the verifier) and yields no identity — refuting the claim
that any capitalization of the prefix gives the same result. -/
theorem c8_uppercase_prefix_not_stripped :
    authenticateJWT vfyFixed (some "Bearer good.token")
        = .ok (some ⟨.str "alice", .bool true⟩)
    ∧ authenticateJWT vfyFixed (some "BEARER good.token") = .ok none
    ∧ stripBearer "BEARER good.token" = "BEARER good.token" :=
  ⟨rfl, rfl, by decide⟩

/-- Reduction of the extractor on a non-empty header to the
caught-verification result. -/
lemma authenticateJWT_some (verify : String → Except JwtError Payload)
    (h : String) (hh : h ≠ "") :
    authenticateJWT verify (some h)
      = .ok (match verify (stripBearer h) with
             | .ok p => some p
             | .error _ => none) := by
  cases hv : verify (stripBearer h) with
  | ok p => simp [authenticateJWT, hh, hv]
  | error e => simp [authenticateJWT, hh, hv]

/-- C8 (amended): the extractor strips the seven-character prefix
exactly when the header starts with "Bearer " or "bearer " (only the
first letter is case-insensitive), trims whitespace, and verifies the
remainder; a header with any other shape — including other
capitalizations such as "BEARER " — is trimmed and verified whole. -/
theorem c8_amended_prefix_stripping (verify : String → Except JwtError Payload)
    (h : String) :
    (charsStartWith h.data "Bearer ".data = true →
      authenticateJWT verify (some h)
        = .ok (match verify ⟨trimChars (h.data.drop 7)⟩ with
               | .ok p => some p
               | .error _ => none))
    ∧ (charsStartWith h.data "Bearer ".data = false →
        charsStartWith h.data "bearer ".data = true →
        authenticateJWT verify (some h)
          = .ok (match verify ⟨trimChars (h.data.drop 7)⟩ with
                 | .ok p => some p
                 | .error _ => none))
    ∧ (charsStartWith h.data "Bearer ".data = false →
        charsStartWith h.data "bearer ".data = false → h ≠ "" →
        authenticateJWT verify (some h)
          = .ok (match verify ⟨trimChars h.data⟩ with
                 | .ok p => some p
                 | .error _ => none)) := by
  refine ⟨?_, ?_, ?_⟩
  · intro hB
    have hne : h ≠ "" := by
      intro heq
      subst heq
      exact absurd hB (by decide)
    rw [authenticateJWT_some verify h hne]
    simp [stripBearer, hB]
  · intro hB hb
    have hne : h ≠ "" := by
      intro heq
      subst heq
      exact absurd hb (by decide)
    rw [authenticateJWT_some verify h hne]
    simp [stripBearer, hB, hb]
  · intro hB hb hne
    rw [authenticateJWT_some verify h hne]
    simp [stripBearer, hB, hb]

/-- Witness for the amended C8: applied to the fixed verifier and the
correctly prefixed header, with the prefix hypothesis discharged on the
concrete input. -/
theorem c8_amended_prefix_stripping_witness :
    charsStartWith "Bearer good.token".data "Bearer ".data = true
    ∧ authenticateJWT vfyFixed (some "Bearer good.token")
        = .ok (match vfyFixed ⟨trimChars ("Bearer good.token".data.drop 7)⟩ with
               | .ok p => some p
               | .error _ => none) :=
  ⟨by decide,
    (c8_amended_prefix_stripping vfyFixed "Bearer good.token").1 (by decide)⟩

/-- C1 (evaluation at the failing input): unrecognized filter keys are
not ignored by the builder. A filter holding only the key "foo"
produces the dangling clause "WHERE " while the value of "foo" still
lands in the bound-values list; mixed with a recognized key, the
unrecognized key contributes an empty fragment (a leading " AND " in
the clause) and its value, and it shifts the placeholder index of the
recognized key to the position counted over all keys. -/
theorem c1_unrecognized_keys_not_ignored :
    filterCompanies [("foo", JSValue.str "x")] = ("WHERE ", [JSValue.str "x"])
    ∧ filterCompanies [("foo", JSValue.num 1), ("minEmployees", JSValue.num 2)]
        = ("WHERE  AND num_employees >= $2", [JSValue.num 1, JSValue.num 2]) :=
  ⟨by decide, by decide⟩

/-- C5: the empty filter produces an empty clause and an empty bound
list, so no WHERE keyword (indeed no character at all) is emitted. -/
theorem c5_empty_filter_empty_clause (α : Type) :
    filterCompanies ([] : List (String × α)) = ("", [])
    ∧ (filterCompanies ([] : List (String × α))).1.data = [] :=
  ⟨rfl, rfl⟩

/-- C3: the generated clause is a function of the key list alone — two
filters with the same keys in the same order produce identical clause
strings even for values of different types — and the caller-supplied
values go exclusively to the bound-values list, which is exactly the
value column of the input in order. -/
theorem c3_clause_depends_only_on_keys {α β : Type}
    (d1 : List (String × α)) (d2 : List (String × β))
    (hkeys : d1.map Prod.fst = d2.map Prod.fst) :
    (filterCompanies d1).1 = (filterCompanies d2).1
    ∧ (filterCompanies d1).2 = d1.map Prod.snd := by
  constructor
  · simp only [filterCompanies]
    rw [hkeys]
    by_cases hc : (d2.map Prod.fst).length < 1
    · rw [if_pos hc, if_pos hc]
    · rw [if_neg hc, if_neg hc]
  · simp only [filterCompanies]
    by_cases hc : (d1.map Prod.fst).length < 1
    · have hnil : d1 = [] := by
        cases d1 with
        | nil => rfl
        | cons x xs => simp at hc
      subst hnil
      rfl
    · rw [if_neg hc]

/-- Witness for C3: the spec's own injection scenario — the clause for
a nameLike filter is character-identical whether the value is "net" or
a SQL-injection payload, and the values end up only in the bound
list. -/
theorem c3_clause_depends_only_on_keys_witness :
    ([("nameLike", JSValue.str "net")].map Prod.fst
        = [("nameLike", JSValue.str "\x27; DROP TABLE x; --")].map Prod.fst)
    ∧ ((filterCompanies [("nameLike", JSValue.str "net")]).1
          = (filterCompanies [("nameLike", JSValue.str "\x27; DROP TABLE x; --")]).1
        ∧ (filterCompanies [("nameLike", JSValue.str "net")]).2
            = [("nameLike", JSValue.str "net")].map Prod.snd) :=
  ⟨by decide,
    c3_clause_depends_only_on_keys
      [("nameLike", JSValue.str "net")]
      [("nameLike", JSValue.str "\x27; DROP TABLE x; --")] (by decide)⟩

/-- C4: when both employee bounds are present as numbers and the lower
exceeds the upper, `findAll` fails with the range error (the spec's
InvalidRangeError) and no query text or bound list is produced; when
the lower is at most the upper, and likewise when either bound is
absent, the error is not raised and the query is built. -/
theorem c4_inverted_range_rejected (filter : List (String × JSValue)) :
    (∀ a b : Int,
        getField filter "minEmployees" = .num a →
        getField filter "maxEmployees" = .num b →
        ((a > b → findAll filter = .error (.badRequest rangeErrorMsg))
          ∧ (a ≤ b → findAll filter
              = .ok (companiesQuery (filterCompanies filter).1,
                     (filterCompanies filter).2))))
    ∧ ((getField filter "minEmployees" = .undefined
          ∨ getField filter "maxEmployees" = .undefined) →
        findAll filter
          = .ok (companiesQuery (filterCompanies filter).1,
                 (filterCompanies filter).2)) := by
  constructor
  · intro a b hna hnb
    constructor
    · intro hab
      have hgt : jsGt (getField filter "minEmployees") (getField filter "maxEmployees")
          = true := by
        rw [hna, hnb]
        simpa [jsGt] using hab
      simp [findAll, hgt]
    · intro hab
      have hgt : jsGt (getField filter "minEmployees") (getField filter "maxEmployees")
          = false := by
        rw [hna, hnb]
        simpa [jsGt] using not_lt.mpr hab
      simp [findAll, hgt]
  · intro hu
    have hgt : jsGt (getField filter "minEmployees") (getField filter "maxEmployees")
        = false := by
      rcases hu with hu | hu
      · rw [hu]
        rfl
      · rw [hu]
        cases getField filter "minEmployees" <;> rfl
    simp [findAll, hgt]

/-- Witness for C4: the spec's concrete scenario minEmployees 50,
maxEmployees 10 — both hypotheses hold and `findAll` fails with the
range error. -/
theorem c4_inverted_range_rejected_witness :
    (getField [("minEmployees", JSValue.num 50), ("maxEmployees", JSValue.num 10)]
          "minEmployees" = .num 50
      ∧ getField [("minEmployees", JSValue.num 50), ("maxEmployees", JSValue.num 10)]
          "maxEmployees" = .num 10
      ∧ (50 : Int) > 10)
    ∧ findAll [("minEmployees", JSValue.num 50), ("maxEmployees", JSValue.num 10)]
        = .error (.badRequest rangeErrorMsg) :=
  ⟨⟨rfl, rfl, by decide⟩,
    ((c4_inverted_range_rejected
        [("minEmployees", JSValue.num 50), ("maxEmployees", JSValue.num 10)]).1
      50 10 rfl rfl).1 (by decide)⟩

/-- A recognized key makes the map callback return its SQL fragment. -/
lemma fragmentFor_recognized (k : String) (idx : Nat) (hk : recognizedKey k = true) :
    fragmentFor k idx = some (recFragment k idx) := by
  simp only [recognizedKey, Bool.or_eq_true, beq_iff_eq] at hk
  rcases hk with (h | h) | h <;> subst h <;> rfl

/-- On an all-recognized key list the fragment list is the plain
fragment list with no undefined entries. -/
lemma fragmentsFrom_recognized (keys : List String) :
    ∀ idx : Nat, (∀ k ∈ keys, recognizedKey k = true) →
      fragmentsFrom idx keys = (recFragsFrom idx keys).map some := by
  induction keys with
  | nil =>
    intro idx _
    rfl
  | cons k ks ih =>
    intro idx hrec
    have hk := hrec k (List.mem_cons_self k ks)
    have hks : ∀ x ∈ ks, recognizedKey x = true :=
      fun x hx => hrec x (List.mem_cons_of_mem k hx)
    simp only [fragmentsFrom, recFragsFrom, List.map_cons]
    rw [fragmentFor_recognized k idx hk, ih (idx + 1) hks]

/-- Joining a list with no undefined entries is ordinary
intercalation. -/
lemma undefJoin_map_some (l : List String) (sep : String) :
    undefJoin (l.map some) sep = String.intercalate sep l := by
  have hmap : ∀ m : List String, (m.map some).map (fun x => x.getD "") = m := by
    intro m
    induction m with
    | nil => rfl
    | cons a t ih => simp only [List.map_cons, Option.getD_some, ih]
  simp only [undefJoin, hmap]

/-- The plain fragment list has one fragment per key. -/
lemma recFragsFrom_length (keys : List String) :
    ∀ idx : Nat, (recFragsFrom idx keys).length = keys.length := by
  induction keys with
  | nil =>
    intro idx
    rfl
  | cons k ks ih =>
    intro idx
    simp only [recFragsFrom, List.length_cons, ih (idx + 1)]

/-- The fragment at position i of the plain fragment list is the
fragment of the key at position i, indexed by the start offset plus
i. -/
lemma recFragsFrom_get (keys : List String) :
    ∀ (idx i : Nat) (hi : i < (recFragsFrom idx keys).length) (hk : i < keys.length),
      (recFragsFrom idx keys).get ⟨i, hi⟩ = recFragment (keys.get ⟨i, hk⟩) (idx + i) := by
  induction keys with
  | nil =>
    intro idx i hi hk
    exact absurd hk (Nat.not_lt_zero i)
  | cons k ks ih =>
    intro idx i hi hk
    cases i with
    | zero =>
      show recFragment k idx = recFragment k (idx + 0)
      rw [Nat.add_zero]
    | succ n =>
      have h1 : n < (recFragsFrom (idx + 1) ks).length := by
        have := hi
        simpa [recFragsFrom] using this
      have h2 : n < ks.length := by
        simpa using hk
      have hrec := ih (idx + 1) n h1 h2
      show (recFragsFrom (idx + 1) ks).get ⟨n, h1⟩ = recFragment (ks.get ⟨n, h2⟩) (idx + (n + 1))
      rw [show idx + (n + 1) = idx + 1 + n from by omega]
      exact hrec

/-- C6: on a non-empty filter whose keys are all recognized, the clause
is WHERE followed by one fragment per key joined with AND, the
fragment at zero-based position i is the fragment of the key at
position i with placeholder index i + 1 (so the Kth fragment, 1-based,
uses placeholder K), every recognized fragment literally contains the
text of its placeholder, and the bound values are exactly the input
values in insertion order — so the Kth placeholder refers to the Kth
value. -/
theorem c6_fragments_in_insertion_order {α : Type} (data : List (String × α))
    (hne : data ≠ [])
    (hrec : ∀ k ∈ data.map Prod.fst, recognizedKey k = true) :
    (∃ frags : List String,
        (filterCompanies data).1 = "WHERE " ++ String.intercalate " AND " frags
        ∧ frags.length = data.length
        ∧ ∀ (i : Nat) (hi : i < frags.length) (hd : i < (data.map Prod.fst).length),
            frags.get ⟨i, hi⟩ = recFragment ((data.map Prod.fst).get ⟨i, hd⟩) i)
    ∧ (filterCompanies data).2 = data.map Prod.snd
    ∧ (∀ (k : String) (idx : Nat), recognizedKey k = true →
        ∃ pre post : String,
          recFragment k idx = pre ++ "$" ++ toString (idx + 1) ++ post) := by
  have hlen : ¬ (data.map Prod.fst).length < 1 := by
    cases data with
    | nil => exact absurd rfl hne
    | cons x xs => simp
  refine ⟨⟨recFragsFrom 0 (data.map Prod.fst), ?_, ?_, ?_⟩, ?_, ?_⟩
  · simp only [filterCompanies]
    rw [if_neg hlen, fragmentsFrom_recognized _ 0 hrec, undefJoin_map_some]
  · rw [recFragsFrom_length]
    simp
  · intro i hi hd
    have := recFragsFrom_get (data.map Prod.fst) 0 i hi hd
    simpa using this
  · simp only [filterCompanies]
    rw [if_neg hlen]
  · intro k idx hk
    simp only [recognizedKey, Bool.or_eq_true, beq_iff_eq] at hk
    rcases hk with (h | h) | h <;> subst h
    · refine ⟨"num_employees >= ", "", ?_⟩
      rw [String.append_empty]
      rfl
    · refine ⟨"num_employees <=  ", "", ?_⟩
      rw [String.append_empty]
      rfl
    · exact ⟨"name ILIKE \x27%\x27||", "||\x27%\x27", rfl⟩

/-- Witness for C6: the theorem applied to the concrete two-key filter
with minEmployees first and nameLike second, both hypotheses discharged
by computation. -/
theorem c6_fragments_in_insertion_order_witness :
    (([("minEmployees", JSValue.num 2), ("nameLike", JSValue.str "net")]
          : List (String × JSValue)) ≠ []
      ∧ ∀ k ∈ ([("minEmployees", JSValue.num 2), ("nameLike", JSValue.str "net")]
            : List (String × JSValue)).map Prod.fst, recognizedKey k = true)
    ∧ (∃ frags : List String,
        (filterCompanies
            [("minEmployees", JSValue.num 2), ("nameLike", JSValue.str "net")]).1
          = "WHERE " ++ String.intercalate " AND " frags
        ∧ frags.length
            = ([("minEmployees", JSValue.num 2), ("nameLike", JSValue.str "net")]
                : List (String × JSValue)).length
        ∧ ∀ (i : Nat) (hi : i < frags.length)
            (hd : i < (([("minEmployees", JSValue.num 2), ("nameLike", JSValue.str "net")]
                : List (String × JSValue)).map Prod.fst).length),
            frags.get ⟨i, hi⟩
              = recFragment ((([("minEmployees", JSValue.num 2),
                  ("nameLike", JSValue.str "net")]
                    : List (String × JSValue)).map Prod.fst).get ⟨i, hd⟩) i) :=
  ⟨⟨by decide, by decide⟩,
    (c6_fragments_in_insertion_order
      [("minEmployees", JSValue.num 2), ("nameLike", JSValue.str "net")]
      (by decide) (by decide)).1⟩

end Jobly
